import Mathlib

/-!
Verification of the zCore-Tutorial core excerpt: the handle-rights bitmask
model (`zircon-object/src/object/rights.rs`), the unix physical-memory HAL
(`kernel-hal-unix/src/lib.rs`), and the userboot bootstrap sequence
(`zircon-loader/src/lib.rs`), shallowly embedded as pure Lean functions.
-/

namespace ZCore

/-! ## Rights (zircon-object/src/object/rights.rs)

Each `Rights` constant is a `u32` bit pattern; we model the patterns as `Nat`
(all values are below `2^32`).  Rust's `!x` on `u32` is complement within 32
bits, modelled by xor with `0xFFFFFFFF`. -/

namespace Rights

def DUPLICATE : Nat := 1 <<< 0
def TRANSFER : Nat := 1 <<< 1
def READ : Nat := 1 <<< 2
def WRITE : Nat := 1 <<< 3
def EXECUTE : Nat := 1 <<< 4
def MAP : Nat := 1 <<< 5
def GET_PROPERTY : Nat := 1 <<< 6
def SET_PROPERTY : Nat := 1 <<< 7
def ENUMERATE : Nat := 1 <<< 8
def DESTROY : Nat := 1 <<< 9
def SET_POLICY : Nat := 1 <<< 10
def GET_POLICY : Nat := 1 <<< 11
def SIGNAL : Nat := 1 <<< 12
def SIGNAL_PEER : Nat := 1 <<< 13
def WAIT : Nat := 1 <<< 14
def INSPECT : Nat := 1 <<< 15
def MANAGE_JOB : Nat := 1 <<< 16
def MANAGE_PROCESS : Nat := 1 <<< 17
def MANAGE_THREAD : Nat := 1 <<< 18
def APPLY_PROFILE : Nat := 1 <<< 19
def SAME_RIGHTS : Nat := 1 <<< 31

/-- Rust `!x` on a `u32` bit pattern. -/
def rnot (x : Nat) : Nat := Nat.xor x 0xFFFFFFFF

/-- `Rights::empty()` of the bitflags crate. -/
def empty : Nat := 0

def BASIC : Nat := TRANSFER ||| DUPLICATE ||| WAIT ||| INSPECT

/-- `READ | WRITE` (named `IO` in the source). -/
def IO_MASK : Nat := READ ||| WRITE

def PROPERTY : Nat := GET_PROPERTY ||| SET_PROPERTY

def POLICY : Nat := GET_POLICY ||| SET_POLICY

def DEFAULT_CHANNEL : Nat :=
  BASIC &&& rnot DUPLICATE ||| IO_MASK ||| SIGNAL ||| SIGNAL_PEER

def DEFAULT_PROCESS : Nat :=
  BASIC ||| IO_MASK ||| PROPERTY ||| ENUMERATE ||| DESTROY |||
    SIGNAL ||| MANAGE_PROCESS ||| MANAGE_THREAD

def DEFAULT_THREAD : Nat :=
  BASIC ||| IO_MASK ||| PROPERTY ||| DESTROY ||| SIGNAL ||| MANAGE_THREAD

def DEFAULT_VMAR : Nat := BASIC &&& rnot WAIT

def DEFAULT_JOB : Nat :=
  BASIC ||| IO_MASK ||| PROPERTY ||| POLICY ||| ENUMERATE |||
    DESTROY ||| SIGNAL ||| MANAGE_JOB ||| MANAGE_PROCESS ||| MANAGE_THREAD

def DEFAULT_VMO : Nat :=
  BASIC ||| IO_MASK ||| PROPERTY ||| MAP ||| SIGNAL

def DEFAULT_RESOURCE : Nat := TRANSFER ||| DUPLICATE ||| WRITE ||| INSPECT

end Rights

/-! Spec-side recomputation of the composite rights, following the stated
formulas literally; set subtraction `A − B` on bitmasks is `A &&& rnot B`. -/

namespace RightsSpec

open Rights

def BASIC_FORMULA : Nat := TRANSFER ||| DUPLICATE ||| WAIT ||| INSPECT

def IO_FORMULA : Nat := READ ||| WRITE

def PROPERTY_FORMULA : Nat := GET_PROPERTY ||| SET_PROPERTY

def POLICY_FORMULA : Nat := GET_POLICY ||| SET_POLICY

def CHANNEL_FORMULA : Nat :=
  (BASIC_FORMULA &&& rnot DUPLICATE) ||| IO_FORMULA ||| SIGNAL ||| SIGNAL_PEER

def PROCESS_FORMULA : Nat :=
  BASIC_FORMULA ||| IO_FORMULA ||| PROPERTY_FORMULA ||| ENUMERATE |||
    DESTROY ||| SIGNAL ||| MANAGE_PROCESS ||| MANAGE_THREAD

def THREAD_FORMULA : Nat :=
  BASIC_FORMULA ||| IO_FORMULA ||| PROPERTY_FORMULA ||| DESTROY |||
    SIGNAL ||| MANAGE_THREAD

def VMAR_FORMULA : Nat := BASIC_FORMULA &&& rnot WAIT

def JOB_FORMULA : Nat :=
  BASIC_FORMULA ||| IO_FORMULA ||| PROPERTY_FORMULA ||| POLICY_FORMULA |||
    ENUMERATE ||| DESTROY ||| SIGNAL ||| MANAGE_JOB ||| MANAGE_PROCESS |||
    MANAGE_THREAD

def VMO_FORMULA : Nat :=
  BASIC_FORMULA ||| IO_FORMULA ||| PROPERTY_FORMULA ||| MAP ||| SIGNAL

def RESOURCE_FORMULA : Nat := TRANSFER ||| DUPLICATE ||| WRITE ||| INSPECT

end RightsSpec

/-- C2: every composite `Rights` constant equals the value recomputed from the
primitive bits by the spec's formula; `DEFAULT_CHANNEL` excludes `DUPLICATE`
but includes `TRANSFER`; `DEFAULT_VMAR = BASIC − WAIT`; and `DEFAULT_VMO`
contains both `IO` and `PROPERTY`. -/
theorem rights_composites_bit_exact :
    Rights.BASIC = RightsSpec.BASIC_FORMULA ∧
    Rights.IO_MASK = RightsSpec.IO_FORMULA ∧
    Rights.PROPERTY = RightsSpec.PROPERTY_FORMULA ∧
    Rights.POLICY = RightsSpec.POLICY_FORMULA ∧
    Rights.DEFAULT_CHANNEL = RightsSpec.CHANNEL_FORMULA ∧
    Rights.DEFAULT_PROCESS = RightsSpec.PROCESS_FORMULA ∧
    Rights.DEFAULT_THREAD = RightsSpec.THREAD_FORMULA ∧
    Rights.DEFAULT_VMAR = RightsSpec.VMAR_FORMULA ∧
    Rights.DEFAULT_JOB = RightsSpec.JOB_FORMULA ∧
    Rights.DEFAULT_VMO = RightsSpec.VMO_FORMULA ∧
    Rights.DEFAULT_RESOURCE = RightsSpec.RESOURCE_FORMULA ∧
    Rights.DEFAULT_CHANNEL &&& Rights.DUPLICATE = 0 ∧
    Rights.DEFAULT_CHANNEL &&& Rights.TRANSFER = Rights.TRANSFER ∧
    Rights.DEFAULT_VMAR = Rights.BASIC &&& Rights.rnot Rights.WAIT ∧
    Rights.DEFAULT_VMO &&& Rights.IO_MASK = Rights.IO_MASK ∧
    Rights.DEFAULT_VMO &&& Rights.PROPERTY = Rights.PROPERTY := by
  decide

/-! ## Physical memory manager (kernel-hal-unix/src/lib.rs) -/

/-- Modelled from the spec: `PAGE_SIZE` is imported from the external
`kernel-hal` crate (re-exported via `defs`), not part of this excerpt; pages
are the standard 4 KiB units the spec's frame allocator works in. -/
def PAGE_SIZE : Nat := 0x1000

/-- `const PMEM_SIZE: usize = 0x4000_0000; // 1GiB` -/
def PMEM_SIZE : Nat := 0x40000000

/-- Rust's `(start..stop).step_by(step)` for `step > 0`: the addresses
`start, start+step, ...` strictly below `stop`. -/
def stepBy (start stop step : Nat) : List Nat :=
  (List.range ((stop - start + step - 1) / step)).map (fun i => start + i * step)

/-- State of the frame allocator: `AVAILABLE_FRAMES` (a `VecDeque`, head =
front) together with the multiset of paddrs owned by live `PhysFrame`s. -/
structure AllocState where
  available : List Nat
  live : List Nat

/-- `AVAILABLE_FRAMES` is initialized to
`(PAGE_SIZE..PMEM_SIZE).step_by(PAGE_SIZE).collect()`; no frame is live. -/
def initAllocState : AllocState :=
  ⟨stepBy PAGE_SIZE PMEM_SIZE PAGE_SIZE, []⟩

/-- `PhysFrame::alloc`: `pop_front` one address from `AVAILABLE_FRAMES` and
turn it into a live frame; `None` when the registry is empty. -/
def allocFrame (s : AllocState) : Option Nat × AllocState :=
  match s.available with
  | [] => (none, s)
  | a :: rest => (some a, ⟨rest, a :: s.live⟩)

/-- `Drop for PhysFrame`: `push_back` the frame's paddr onto
`AVAILABLE_FRAMES`.  Rust ownership makes dropping a non-live frame
structurally impossible; releasing an address with no live frame is a no-op
here. -/
def releaseFrame (s : AllocState) (a : Nat) : AllocState :=
  if a ∈ s.live then ⟨s.available ++ [a], s.live.erase a⟩ else s

inductive FrameOp where
  | alloc : FrameOp
  | release : Nat → FrameOp

def frameStep (s : AllocState) : FrameOp → AllocState
  | FrameOp.alloc => (allocFrame s).2
  | FrameOp.release a => releaseFrame s a

def runFrameOps (ops : List FrameOp) (s : AllocState) : AllocState :=
  ops.foldl frameStep s

theorem frameStep_perm (s : AllocState) (op : FrameOp) :
    ((frameStep s op).available ++ (frameStep s op).live).Perm
      (s.available ++ s.live) := by
  cases op with
  | alloc =>
      cases h : s.available with
      | nil => simp [frameStep, allocFrame, h]
      | cons a rest =>
          simp only [frameStep, allocFrame, h, List.cons_append]
          exact List.perm_middle
  | release a =>
      by_cases h : a ∈ s.live
      · simp only [frameStep, releaseFrame, h, if_pos, List.append_assoc,
          List.singleton_append]
        exact List.Perm.append_left _ (List.perm_cons_erase h).symm
      · simp [frameStep, releaseFrame, h]

theorem runFrameOps_perm (ops : List FrameOp) (s : AllocState) :
    ((runFrameOps ops s).available ++ (runFrameOps ops s).live).Perm
      (s.available ++ s.live) := by
  induction ops generalizing s with
  | nil => simp [runFrameOps]
  | cons op ops ih =>
      have h1 := ih (frameStep s op)
      have h2 := frameStep_perm s op
      simpa [runFrameOps] using h1.trans h2

theorem initAllocState_nodup : initAllocState.available.Nodup := by
  have hinj : Function.Injective (fun i : Nat => PAGE_SIZE + i * PAGE_SIZE) := by
    intro a b h
    simp only [PAGE_SIZE] at h
    omega
  simpa [initAllocState, stepBy] using (List.nodup_range _).map hinj

theorem initAllocState_length :
    initAllocState.available.length = PMEM_SIZE / PAGE_SIZE - 1 := by
  simp [initAllocState, stepBy, PMEM_SIZE, PAGE_SIZE]

/-- C3: after any interleaved sequence of allocate/release operations from the
initial registry, (i) no two simultaneously-live frames share a physical
address, (ii) an address is in the free registry iff it is a managed page
address and no live frame owns it, and (iii) registry size plus live-frame
count is constant, equal to `PMEM_SIZE / PAGE_SIZE - 1`. -/
theorem frame_allocator_invariant (ops : List FrameOp) :
    (runFrameOps ops initAllocState).live.Nodup ∧
    (∀ a, a ∈ (runFrameOps ops initAllocState).available ↔
      (a ∈ initAllocState.available ∧
        a ∉ (runFrameOps ops initAllocState).live)) ∧
    (runFrameOps ops initAllocState).available.length +
        (runFrameOps ops initAllocState).live.length
      = PMEM_SIZE / PAGE_SIZE - 1 := by
  have hperm := runFrameOps_perm ops initAllocState
  simp only [initAllocState] at hperm ⊢
  rw [List.append_nil] at hperm
  have hnodup : ((runFrameOps ops initAllocState).available ++
      (runFrameOps ops initAllocState).live).Nodup := by
    refine hperm.nodup_iff.mpr ?_
    simpa [initAllocState] using initAllocState_nodup
  have hdisj := List.disjoint_of_nodup_append hnodup
  refine ⟨hnodup.of_append_right, ?_, ?_⟩
  · intro a
    constructor
    · intro ha
      refine ⟨?_, hdisj ha⟩
      have : a ∈ (runFrameOps ops initAllocState).available ++
          (runFrameOps ops initAllocState).live := by
        simpa using Or.inl ha
      simpa [initAllocState] using hperm.mem_iff.mp this
    · rintro ⟨hin, hnl⟩
      have : a ∈ (runFrameOps ops initAllocState).available ++
          (runFrameOps ops initAllocState).live := by
        refine hperm.mem_iff.mpr ?_
        simpa [initAllocState] using hin
      rcases List.mem_append.mp this with h | h
      · exact h
      · exact absurd h hnl
  · have := hperm.length_eq
    simp only [List.length_append] at this
    rw [this]
    simpa [initAllocState] using initAllocState_length

/-- `n` consecutive `PhysFrame::alloc` calls: the list of results in order,
and the final state. -/
def allocN : Nat → AllocState → List (Option Nat) × AllocState
  | 0, s => ([], s)
  | n + 1, s =>
      let r := allocFrame s
      let rs := allocN n r.2
      (r.1 :: rs.1, rs.2)

theorem allocN_results (n : Nat) (avail live : List Nat) :
    (allocN n ⟨avail, live⟩).1
      = (avail.take n).map some ++ List.replicate (n - avail.length) none := by
  induction n generalizing avail live with
  | zero => simp [allocN]
  | succ n ih =>
      cases avail with
      | nil => simp [allocN, allocFrame, ih, List.replicate_succ]
      | cons a rest => simp [allocN, allocFrame, ih rest]

theorem allocN_available (n : Nat) (avail live : List Nat) :
    ∃ l, (allocN n ⟨avail, live⟩).2 = ⟨avail.drop n, l⟩ := by
  induction n generalizing avail live with
  | zero => exact ⟨live, rfl⟩
  | succ n ih =>
      cases avail with
      | nil =>
          obtain ⟨l, hl⟩ := ih [] live
          exact ⟨l, by simpa [allocN, allocFrame] using hl⟩
      | cons a rest =>
          obtain ⟨l, hl⟩ := ih rest (a :: live)
          exact ⟨l, by simpa [allocN, allocFrame] using hl⟩

theorem allocN_results_state (n : Nat) (s : AllocState) :
    (allocN n s).1
      = (s.available.take n).map some
        ++ List.replicate (n - s.available.length) none := by
  obtain ⟨avail, live⟩ := s
  exact allocN_results n avail live

theorem allocN_available_state (n : Nat) (s : AllocState) :
    ∃ l, (allocN n s).2 = ⟨s.available.drop n, l⟩ := by
  obtain ⟨avail, live⟩ := s
  exact allocN_available n avail live

theorem initAllocState_mem (a : Nat) :
    a ∈ initAllocState.available ↔
      (PAGE_SIZE ∣ a ∧ PAGE_SIZE ≤ a ∧ a < PMEM_SIZE) := by
  simp only [initAllocState, stepBy, List.mem_map, List.mem_range,
    PAGE_SIZE, PMEM_SIZE]
  constructor
  · rintro ⟨i, hi, rfl⟩
    refine ⟨⟨i + 1, by ring⟩, by omega, by omega⟩
  · rintro ⟨⟨k, rfl⟩, hk1, hk2⟩
    exact ⟨k - 1, by omega, by omega⟩

/-- C4: the free registry starts as every page-aligned address in
`[PAGE_SIZE, PMEM_SIZE)`; from that state `PMEM_SIZE / PAGE_SIZE - 1`
consecutive allocations all succeed, none of them returns the zero page, and
the next allocation returns the `none` "no frame" result. -/
theorem allocator_exhaustion :
    (∀ a, a ∈ initAllocState.available ↔
      (PAGE_SIZE ∣ a ∧ PAGE_SIZE ≤ a ∧ a < PMEM_SIZE)) ∧
    (∀ r ∈ (allocN (PMEM_SIZE / PAGE_SIZE - 1) initAllocState).1, r.isSome) ∧
    some 0 ∉ (allocN (PMEM_SIZE / PAGE_SIZE - 1) initAllocState).1 ∧
    (allocFrame (allocN (PMEM_SIZE / PAGE_SIZE - 1) initAllocState).2).1
      = none := by
  have hlen := initAllocState_length
  have hres := allocN_results_state (PMEM_SIZE / PAGE_SIZE - 1) initAllocState
  have havail := allocN_available_state (PMEM_SIZE / PAGE_SIZE - 1)
    initAllocState
  rw [hlen, Nat.sub_self, List.replicate_zero, List.append_nil,
    List.take_of_length_le (le_of_eq hlen)] at hres
  refine ⟨initAllocState_mem, ?_, ?_, ?_⟩
  · intro r hr
    rw [hres] at hr
    obtain ⟨a, _, rfl⟩ := List.mem_map.mp hr
    rfl
  · rw [hres]
    intro hmem
    obtain ⟨a, ha, hae⟩ := List.mem_map.mp hmem
    have ha0 : a = 0 := by simpa using hae
    subst ha0
    have := (initAllocState_mem 0).mp ha
    simp [PAGE_SIZE] at this
  · obtain ⟨l, hl⟩ := havail
    rw [List.drop_of_length_le (le_of_eq hlen)] at hl
    rw [hl]
    rfl

/-! ## Raw physical-memory byte operations

The backing store (the mmapped pmem file) is a flat byte array of size
`PMEM_SIZE`, modelled as a total function from addresses to byte values.
Each operation first performs the source's `assert!` bounds check; the fatal
assertion-abort branch is modelled as `none`. -/

/-- The simulated physical memory contents: byte value at each address. -/
def Mem : Type := Nat → Nat

/-- `pmem_read(paddr, buf)`: asserts `paddr + buf.len() <= PMEM_SIZE`, then
copies `buf.len()` bytes out of the store starting at `paddr`. -/
def pmem_read (m : Mem) (paddr len : Nat) : Option (List Nat) :=
  if paddr + len ≤ PMEM_SIZE then
    some ((List.range len).map (fun i => m (paddr + i)))
  else none

/-- `pmem_write(paddr, buf)`: asserts `paddr + buf.len() <= PMEM_SIZE`, then
copies the bytes of `buf` into the store starting at `paddr`. -/
def pmem_write (m : Mem) (paddr : Nat) (buf : List Nat) : Option Mem :=
  if paddr + buf.length ≤ PMEM_SIZE then
    some (fun a =>
      if paddr ≤ a ∧ a < paddr + buf.length then buf.getD (a - paddr) 0
      else m a)
  else none

/-- `pmem_zero(paddr, len)`: asserts `paddr + len <= PMEM_SIZE`, then writes
`len` zero bytes starting at `paddr`. -/
def pmem_zero (m : Mem) (paddr len : Nat) : Option Mem :=
  if paddr + len ≤ PMEM_SIZE then
    some (fun a => if paddr ≤ a ∧ a < paddr + len then 0 else m a)
  else none

/-- `frame_copy(src, target)`: asserts
`src + PAGE_SIZE <= PMEM_SIZE && target + PAGE_SIZE <= PMEM_SIZE`, then
copies one page of bytes from `src` to `target`. -/
def frame_copy (m : Mem) (src target : Nat) : Option Mem :=
  if src + PAGE_SIZE ≤ PMEM_SIZE ∧ target + PAGE_SIZE ≤ PMEM_SIZE then
    some (fun a =>
      if target ≤ a ∧ a < target + PAGE_SIZE then m (src + (a - target))
      else m a)
  else none

/-- C5: writing a buffer `b` at an in-range address `p` and then reading
`b.length` bytes back from `p` yields exactly `b`. -/
theorem pmem_write_read_round_trip (m : Mem) (b : List Nat) (p : Nat)
    (h : p + b.length ≤ PMEM_SIZE) :
    (pmem_write m p b).bind (fun m2 => pmem_read m2 p b.length) = some b := by
  simp only [pmem_write, if_pos h, Option.some_bind, pmem_read,
    Option.some.injEq]
  refine List.ext_getElem (by simp) ?_
  intro i h1 h2
  simp only [List.getElem_map, List.getElem_range]
  have hlt : p + i < p + b.length := by
    simpa using Nat.add_lt_add_left (by simpa using h1) p
  rw [if_pos ⟨Nat.le_add_right p i, hlt⟩, Nat.add_sub_cancel_left,
    List.getD_eq_getElem b 0 (by simpa using h1)]

/-- C5 witness. -/
theorem pmem_write_read_round_trip_witness :
    0 + ([1, 2, 3] : List Nat).length ≤ PMEM_SIZE ∧
    (pmem_write (fun _ => 0) 0 [1, 2, 3]).bind
        (fun m2 => pmem_read m2 0 ([1, 2, 3] : List Nat).length)
      = some [1, 2, 3] :=
  ⟨by decide, pmem_write_read_round_trip (fun _ => 0) [1, 2, 3] 0 (by decide)⟩

/-- C6: each of `pmem_read`, `pmem_write`, `pmem_zero`, `frame_copy` checks
its bounds: it hits the fatal assertion (modelled `none`) exactly when the
accessed range leaves `[0, PMEM_SIZE)`, and completes (`isSome`) exactly when
the range, and for `frame_copy` both page ranges, lie within `PMEM_SIZE`. -/
theorem pmem_bounds_checked (m : Mem) (p len src target : Nat)
    (buf : List Nat) :
    ((pmem_read m p len).isSome ↔ p + len ≤ PMEM_SIZE) ∧
    (pmem_read m p len = none ↔ PMEM_SIZE < p + len) ∧
    ((pmem_write m p buf).isSome ↔ p + buf.length ≤ PMEM_SIZE) ∧
    (pmem_write m p buf = none ↔ PMEM_SIZE < p + buf.length) ∧
    ((pmem_zero m p len).isSome ↔ p + len ≤ PMEM_SIZE) ∧
    (pmem_zero m p len = none ↔ PMEM_SIZE < p + len) ∧
    ((frame_copy m src target).isSome ↔
      (src + PAGE_SIZE ≤ PMEM_SIZE ∧ target + PAGE_SIZE ≤ PMEM_SIZE)) ∧
    (frame_copy m src target = none ↔
      ¬(src + PAGE_SIZE ≤ PMEM_SIZE ∧ target + PAGE_SIZE ≤ PMEM_SIZE)) := by
  unfold pmem_read pmem_write pmem_zero frame_copy
  refine ⟨?_, ?_, ?_, ?_, ?_, ?_, ?_, ?_⟩ <;> split_ifs with h <;>
    simp_all

/-- C7: for page-aligned in-range `src` and `target`, `frame_copy` succeeds,
reading one page at `target` afterwards returns the page that was at `src`
at the time of the call, and the page at `src` is unchanged. -/
theorem frame_copy_page (m : Mem) (src target : Nat)
    (hsa : PAGE_SIZE ∣ src) (hta : PAGE_SIZE ∣ target)
    (hs : src + PAGE_SIZE ≤ PMEM_SIZE) (ht : target + PAGE_SIZE ≤ PMEM_SIZE) :
    ∃ m2, frame_copy m src target = some m2 ∧
      pmem_read m2 target PAGE_SIZE = pmem_read m src PAGE_SIZE ∧
      pmem_read m2 src PAGE_SIZE = pmem_read m src PAGE_SIZE := by
  refine ⟨_, by rw [frame_copy, if_pos ⟨hs, ht⟩], ?_, ?_⟩
  · simp only [pmem_read, if_pos ht, if_pos hs, Option.some.injEq]
    refine List.map_congr_left ?_
    intro i hi
    have hi' : i < PAGE_SIZE := List.mem_range.mp hi
    rw [if_pos ⟨Nat.le_add_right target i, by omega⟩,
      Nat.add_sub_cancel_left]
  · simp only [pmem_read, if_pos hs, Option.some.injEq]
    refine List.map_congr_left ?_
    intro i hi
    have hi' : i < PAGE_SIZE := List.mem_range.mp hi
    by_cases heq : src = target
    · subst heq
      rw [if_pos ⟨Nat.le_add_right src i, by omega⟩, Nat.add_sub_cancel_left]
    · obtain ⟨ks, rfl⟩ := hsa
      obtain ⟨kt, rfl⟩ := hta
      rw [if_neg]
      simp only [PAGE_SIZE] at heq hi' ⊢
      omega

/-- C7 witness. -/
theorem frame_copy_page_witness :
    (PAGE_SIZE ∣ 0 ∧ PAGE_SIZE ∣ PAGE_SIZE ∧ 0 + PAGE_SIZE ≤ PMEM_SIZE ∧
      PAGE_SIZE + PAGE_SIZE ≤ PMEM_SIZE) ∧
    ∃ m2, frame_copy (fun a => a % 7) 0 PAGE_SIZE = some m2 ∧
      pmem_read m2 PAGE_SIZE PAGE_SIZE = pmem_read (fun a => a % 7) 0 PAGE_SIZE ∧
      pmem_read m2 0 PAGE_SIZE = pmem_read (fun a => a % 7) 0 PAGE_SIZE :=
  ⟨by refine ⟨⟨0, by decide⟩, ⟨1, by decide⟩, by decide, by decide⟩,
    frame_copy_page (fun a => a % 7) 0 PAGE_SIZE ⟨0, by decide⟩ ⟨1, by decide⟩
      (by decide) (by decide)⟩

/-! ## Bootstrap loader (zircon-loader/src/lib.rs)

`run_userboot` is straight-line effectful code over external collaborators
(ELF parsing, Vmar/Vmo/Channel objects).  We embed it as a pure function
from the values those collaborators return (sizes, symbol offsets, the
addresses the Vmar hands back) to a record of everything it constructs,
plus the ordered trace of its externally visible actions. -/

def K_PROC_SELF : Nat := 0
def K_VMARROOT_SELF : Nat := 1
def K_ROOTJOB : Nat := 2
def K_ROOTRESOURCE : Nat := 3
def K_ZBI : Nat := 4
def K_FIRSTVDSO : Nat := 5
def K_CRASHLOG : Nat := 8
def K_COUNTERNAMES : Nat := 9
def K_COUNTERS : Nat := 10
def K_FISTINSTRUMENTATIONDATA : Nat := 11
def K_HANDLECOUNT : Nat := 15

/-- The distinct kernel objects `run_userboot` puts handles on. -/
inductive KObject where
  | proc : KObject
  | rootVmar : KObject
  | rootJob : KObject
  | rootResource : KObject
  | zbiVmo : KObject
  | vdsoVmo : KObject
  | vdsoTest1 : KObject
  | vdsoTest2 : KObject
  | crashLogVmo : KObject
  | counterNamesVmo : KObject
  | countersVmo : KObject
  | instrumentationVmo : KObject
deriving DecidableEq

/-- `Handle::new(object, rights)`. -/
structure Handle where
  object : KObject
  rights : Nat
deriving DecidableEq

/-- The queries `run_userboot` makes of a parsed ELF image (the `xmas-elf`
collaborator, out of scope): total load-segment span, entry point, and the
offset of the `zcore_syscall_entry` symbol (vDSO only). -/
structure ElfInfo where
  load_segment_size : Nat
  entry_point : Nat
  syscall_entry_symbol : Nat

/-- Everything the external collaborators hand `run_userboot`: the parsed
images, the raw byte lengths, the base addresses chosen by the root Vmar for
the loader-stub region and the stack mapping, the host `syscall_entry`
address, the opaque `vdso_constants` snapshot, and the command line (UTF-8
bytes). -/
structure BootEnv where
  userbootElf : ElfInfo
  vdsoElf : ElfInfo
  vdsoImage : List Nat
  zbiLen : Nat
  userbootBase : Nat
  stackBottom : Nat
  syscallEntry : Nat
  vdsoConstants : List Nat
  cmdline : List Nat

/-- The externally visible actions of `run_userboot`, in program order. -/
inductive BootEvent where
  | vmarAllocate : Option Nat → Nat → BootEvent
  | vmarAllocateAt : Nat → Nat → BootEvent
  | vmarMapStack : Nat → BootEvent
  | channelWrite : List Nat → List Handle → BootEvent
  | processStart : Nat → Nat → BootEvent
deriving DecidableEq

def STACK_PAGES : Nat := 8

/-- `usize::to_ne_bytes` on the 64-bit host: 8 little-endian bytes. -/
def toNeBytes8 (n : Nat) : List Nat :=
  (List.range 8).map (fun i => n / 256 ^ i % 256)

def VDSO_DATA_CONSTANTS : Nat := 0x4a50
def VDSO_DATA_CONSTANTS_SIZE : Nat := 0x78

/-- The handle table: `vec![Handle::new(proc, Rights::empty()); K_HANDLECOUNT]`
followed by the fixed-index assignments, in source order. -/
def bootHandles : List Handle :=
  let hs := List.replicate K_HANDLECOUNT (Handle.mk KObject.proc Rights.empty)
  let hs := hs.set K_PROC_SELF ⟨KObject.proc, Rights.DEFAULT_PROCESS⟩
  let hs := hs.set K_VMARROOT_SELF
    ⟨KObject.rootVmar, Rights.DEFAULT_VMAR ||| Rights.IO_MASK⟩
  let hs := hs.set K_ROOTJOB ⟨KObject.rootJob, Rights.DEFAULT_JOB⟩
  let hs := hs.set K_ROOTRESOURCE
    ⟨KObject.rootResource, Rights.DEFAULT_RESOURCE⟩
  let hs := hs.set K_ZBI ⟨KObject.zbiVmo, Rights.DEFAULT_VMO⟩
  let hs := hs.set K_FIRSTVDSO
    ⟨KObject.vdsoVmo, Rights.DEFAULT_VMO ||| Rights.EXECUTE⟩
  let hs := hs.set (K_FIRSTVDSO + 1)
    ⟨KObject.vdsoTest1, Rights.DEFAULT_VMO ||| Rights.EXECUTE⟩
  let hs := hs.set (K_FIRSTVDSO + 2)
    ⟨KObject.vdsoTest2, Rights.DEFAULT_VMO ||| Rights.EXECUTE⟩
  let hs := hs.set K_CRASHLOG ⟨KObject.crashLogVmo, Rights.DEFAULT_VMO⟩
  let hs := hs.set K_COUNTERNAMES
    ⟨KObject.counterNamesVmo, Rights.DEFAULT_VMO⟩
  let hs := hs.set K_COUNTERS ⟨KObject.countersVmo, Rights.DEFAULT_VMO⟩
  let hs := hs.set K_FISTINSTRUMENTATIONDATA
    ⟨KObject.instrumentationVmo, Rights.DEFAULT_VMO⟩
  let hs := hs.set (K_FISTINSTRUMENTATIONDATA + 1)
    ⟨KObject.instrumentationVmo, Rights.DEFAULT_VMO⟩
  let hs := hs.set (K_FISTINSTRUMENTATIONDATA + 2)
    ⟨KObject.instrumentationVmo, Rights.DEFAULT_VMO⟩
  hs.set (K_FISTINSTRUMENTATIONDATA + 3)
    ⟨KObject.instrumentationVmo, Rights.DEFAULT_VMO⟩

/-- What `run_userboot` constructs. -/
structure BootResult where
  entry : Nat
  userboot_size : Nat
  vdsoVmoPages : Nat
  vdsoVmarOffset : Nat
  vdsoVmarSize : Nat
  vdsoWrites : List (Nat × List Nat)
  sp : Nat
  handles : List Handle
  msgData : List Nat
  msgHandles : List Handle
  events : List BootEvent

/-- Shallow embedding of `run_userboot`.  Sizes and addresses from the
collaborators come from `env`; `stack_vmo.len()` for the 8-page stack Vmo is
`STACK_PAGES * PAGE_SIZE` (spec §4.3: a paged Vmo of n pages is n pages
long).  `':'` is byte 58; `cmdline.replace(':', "\0") + "\0"` on UTF-8 bytes
maps byte 58 to 0 and appends one 0. -/
def run_userboot (env : BootEnv) : BootResult :=
  let userboot_size := env.userbootElf.load_segment_size
  let entry := env.userbootBase + env.userbootElf.entry_point
  let vdso_size := env.vdsoElf.load_segment_size
  let offset := env.vdsoElf.syscall_entry_symbol
  let syscall_entry := toNeBytes8 env.syscallEntry
  let sp := env.stackBottom + STACK_PAGES * PAGE_SIZE - 8
  let data := env.cmdline.map (fun b => if b = 58 then 0 else b) ++ [0]
  { entry := entry
    userboot_size := userboot_size
    vdsoVmoPages := env.vdsoImage.length / PAGE_SIZE + 1
    vdsoVmarOffset := userboot_size
    vdsoVmarSize := vdso_size
    vdsoWrites :=
      [(0, env.vdsoImage),
       (offset, syscall_entry),
       (offset + 8, syscall_entry),
       (offset + 16, syscall_entry),
       (VDSO_DATA_CONSTANTS, env.vdsoConstants)]
    sp := sp
    handles := bootHandles
    msgData := data
    msgHandles := bootHandles
    events :=
      [BootEvent.vmarAllocate none userboot_size,
       BootEvent.vmarAllocateAt userboot_size vdso_size,
       BootEvent.vmarMapStack env.stackBottom,
       BootEvent.channelWrite data bootHandles,
       BootEvent.processStart entry sp] }

/-- C1 counterexample: the handle table `run_userboot` builds does not have
16 slots (`K_HANDLECOUNT` is 15 and indices 0..14 cover the whole table). -/
theorem handle_table_not_sixteen :
    (run_userboot ⟨⟨0, 0, 0⟩, ⟨0, 0, 0⟩, [], 0, 0, 0, 0, [], []⟩).handles.length
      ≠ 16 := by
  decide

/-- C1 (amended): `run_userboot` builds a handle table of exactly
`K_HANDLECOUNT = 15` slots; the slots named by the algorithm are assigned at
their fixed indices (self-process 0, self-root-Vmar 1, root-Job 2,
root-Resource 3, ZBI Vmo 4, v-DSO family 5–7, crash-log 8, counter Vmos
9–10, instrumentation placeholders 11–14); the table starts as a fill of
self-process handles with empty rights, so no slot is ever empty or
invalid. -/
theorem handle_table_layout (env : BootEnv) :
    (run_userboot env).handles = bootHandles ∧
    bootHandles.length = K_HANDLECOUNT ∧
    K_HANDLECOUNT = 15 ∧
    bootHandles[K_PROC_SELF]? = some ⟨KObject.proc, Rights.DEFAULT_PROCESS⟩ ∧
    bootHandles[K_VMARROOT_SELF]?
      = some ⟨KObject.rootVmar, Rights.DEFAULT_VMAR ||| Rights.IO_MASK⟩ ∧
    bootHandles[K_ROOTJOB]? = some ⟨KObject.rootJob, Rights.DEFAULT_JOB⟩ ∧
    bootHandles[K_ROOTRESOURCE]?
      = some ⟨KObject.rootResource, Rights.DEFAULT_RESOURCE⟩ ∧
    bootHandles[K_ZBI]? = some ⟨KObject.zbiVmo, Rights.DEFAULT_VMO⟩ ∧
    bootHandles[K_FIRSTVDSO]?
      = some ⟨KObject.vdsoVmo, Rights.DEFAULT_VMO ||| Rights.EXECUTE⟩ ∧
    bootHandles[K_FIRSTVDSO + 1]?
      = some ⟨KObject.vdsoTest1, Rights.DEFAULT_VMO ||| Rights.EXECUTE⟩ ∧
    bootHandles[K_FIRSTVDSO + 2]?
      = some ⟨KObject.vdsoTest2, Rights.DEFAULT_VMO ||| Rights.EXECUTE⟩ ∧
    bootHandles[K_CRASHLOG]?
      = some ⟨KObject.crashLogVmo, Rights.DEFAULT_VMO⟩ ∧
    bootHandles[K_COUNTERNAMES]?
      = some ⟨KObject.counterNamesVmo, Rights.DEFAULT_VMO⟩ ∧
    bootHandles[K_COUNTERS]?
      = some ⟨KObject.countersVmo, Rights.DEFAULT_VMO⟩ ∧
    (∀ i : Nat, K_FISTINSTRUMENTATIONDATA ≤ i → i ≤ K_FISTINSTRUMENTATIONDATA + 3 →
      bootHandles[i]? = some ⟨KObject.instrumentationVmo, Rights.DEFAULT_VMO⟩) ∧
    (∀ h ∈ List.replicate K_HANDLECOUNT (Handle.mk KObject.proc Rights.empty),
      h = ⟨KObject.proc, Rights.empty⟩) ∧
    (∀ i : Nat, i < K_HANDLECOUNT → (bootHandles[i]?).isSome) := by
  refine ⟨rfl, by decide, rfl, by decide, by decide, by decide, by decide,
    by decide, by decide, by decide, by decide, by decide, by decide,
    by decide, ?_, ?_, ?_⟩
  · intro i h1 h2
    simp only [K_FISTINSTRUMENTATIONDATA] at h1 h2
    interval_cases i <;> decide
  · intro h hmem
    exact List.eq_of_mem_replicate hmem
  · decide

/-- C8: the v-DSO Vmar region is allocated with `allocate_at` at offset
exactly the loader-stub's load-segment span, and the v-DSO Vmo receives
three identical 8-byte patches of the host syscall-entry address at the
syscall-trampoline symbol's offset, offset+8, and offset+16. -/
theorem vdso_placement_and_patch (env : BootEnv) :
    (run_userboot env).vdsoVmarOffset = env.userbootElf.load_segment_size ∧
    (run_userboot env).events[1]?
      = some (BootEvent.vmarAllocateAt env.userbootElf.load_segment_size
          env.vdsoElf.load_segment_size) ∧
    (run_userboot env).vdsoWrites
      = [(0, env.vdsoImage),
         (env.vdsoElf.syscall_entry_symbol, toNeBytes8 env.syscallEntry),
         (env.vdsoElf.syscall_entry_symbol + 8, toNeBytes8 env.syscallEntry),
         (env.vdsoElf.syscall_entry_symbol + 16, toNeBytes8 env.syscallEntry),
         (VDSO_DATA_CONSTANTS, env.vdsoConstants)] ∧
    (toNeBytes8 env.syscallEntry).length = 8 := by
  exact ⟨rfl, rfl, rfl, by simp [toNeBytes8]⟩

/-- C9: for the 8-page stack Vmo mapped at base `stackBottom`, the initial
stack pointer handed to the first thread is
`stackBottom + 8 * PAGE_SIZE - 8`. -/
theorem initial_stack_pointer (env : BootEnv) :
    (run_userboot env).sp = env.stackBottom + 8 * PAGE_SIZE - 8 := rfl

/-- C10: the bootstrap packet's payload is the command line with every `':'`
byte replaced by NUL plus one trailing NUL (so "a:b:c" yields
a,0,b,0,c,0), its handle list is the entire handle table in index order, and
the packet is written to the kernel-side channel endpoint before the first
thread is started. -/
theorem bootstrap_message (env : BootEnv) :
    (run_userboot env).msgData
      = env.cmdline.map (fun b => if b = 58 then 0 else b) ++ [0] ∧
    (run_userboot env).msgHandles = (run_userboot env).handles ∧
    (∃ i j : Nat, i < j ∧
      (run_userboot env).events[i]?
        = some (BootEvent.channelWrite (run_userboot env).msgData
            (run_userboot env).msgHandles) ∧
      (run_userboot env).events[j]?
        = some (BootEvent.processStart (run_userboot env).entry
            (run_userboot env).sp)) ∧
    (run_userboot
        ⟨⟨0, 0, 0⟩, ⟨0, 0, 0⟩, [], 0, 0, 0, 0, [],
          [97, 58, 98, 58, 99]⟩).msgData
      = [97, 0, 98, 0, 99, 0] := by
  exact ⟨rfl, rfl, ⟨3, 4, by omega, rfl, rfl⟩, by decide⟩

end ZCore
